import Mathlib

/-!
Shallow embedding of `miniglean.py`: a local telemetry engine with a durable
metric store (`telemetry` table), a label-cardinality limiter, a ping
assembler, and a pending-ping delivery outbox (`pending_pings` table).

The SQLite tables are modelled as Lean lists of rows; `DATETIME('now')`
timestamps are threaded as explicit `Nat` clock parameters; the uploader's
`random.random() < 0.5` outcome is an explicit oracle `Nat → Bool` indexed by
loop iteration.  Python truthiness (`value or default`, `if self.label:`,
`if this.allowed_labels:`) is modelled by explicit helper functions.
-/

namespace Miniglean

/-- `MAX_LABELS = 16` from miniglean.py. -/
def MAX_LABELS : Nat := 16

/-- `MAX_TRIES = 3` from miniglean.py. -/
def MAX_TRIES : Nat := 3

/-- The overflow label sentinel `"__other__"`. -/
def OTHER : String := "__other__"

/-- A stored metric value: the `value BLOB` column holds either an integer
counter or a string. -/
inductive Value where
  | int (n : Int)
  | str (s : String)
deriving DecidableEq, Repr

/-- One row of the `telemetry` table (`UNIQUE(id, ping, labels)`). -/
structure TelemetryRow where
  id : String
  ping : String
  lifetime : String
  labels : String
  value : Value
  updatedAt : Nat
deriving DecidableEq, Repr

/-- JSON values, for assembled ping payloads. -/
inductive JValue where
  | null
  | int (n : Int)
  | str (s : String)
  | obj (fields : List (String × JValue))

/-- One row of the `pending_pings` table (`UNIQUE(id, ping)`, `tries` defaults
to 0). The payload is kept structured instead of `json.dumps`-serialized. -/
structure PendingRow where
  id : String
  ping : String
  payload : JValue
  metadata : String
  tries : Nat
  updatedAt : Nat

/-- The database `glean.db`: the two tables. -/
structure State where
  telemetry : List TelemetryRow
  pending : List PendingRow

/-- Row predicate for the `WHERE id = ?1 AND ping = ?2 AND labels = ?3`
clauses. -/
def rowMatch (i p l : String) (r : TelemetryRow) : Bool :=
  r.id == i && r.ping == p && r.labels == l

/-- `SELECT * FROM telemetry WHERE id = ?1 AND ping = ?2 AND labels = ?3`,
first row. -/
def selectRow (db : List TelemetryRow) (i p l : String) : Option TelemetryRow :=
  db.find? (rowMatch i p l)

/-- `SELECT value FROM telemetry WHERE id = ?1 AND ping = ?2 AND labels = ?3`
followed by `fetchone`. -/
def selectValue (db : List TelemetryRow) (i p l : String) : Option Value :=
  (selectRow db i p l).map TelemetryRow.value

/-- `INSERT INTO telemetry ... ON CONFLICT(id, ping, labels) DO UPDATE SET
lifetime = excluded.lifetime, value = excluded.value,
updated_at = excluded.updated_at`. -/
def upsert (db : List TelemetryRow) (i p lt l : String) (v : Value) (t : Nat) :
    List TelemetryRow :=
  if (db.find? (rowMatch i p l)).isSome then
    db.map (fun r =>
      if rowMatch i p l r then
        { r with lifetime := lt, value := v, updatedAt := t }
      else r)
  else
    db ++ [⟨i, p, lt, l, v, t⟩]

/-- A metric handle: the fields of `Metric` and its subclasses
(`allowed_labels` from `LabeledCounter`, `allowed_keys`/`allowed_cats` from
`DualLabeledCounter`); attributes absent in Python are `none`. -/
structure Metric where
  name : String
  lifetime : String
  sendInPings : List String
  label : Option String
  allowedLabels : Option (List String)
  allowedKeys : Option (List String)
  allowedCats : Option (List String)

/-- Python truthiness of an optional string (`None` and `""` are falsy), as in
`if self.label:`. -/
def truthyStr : Option String → Bool
  | none => false
  | some s => !(s == "")

/-- Python truthiness of an optional set (`None` and the empty set are falsy),
as in `if this.allowed_labels:`. -/
def truthySet : Option (List String) → Bool
  | none => false
  | some l => !l.isEmpty

/-- Python `x in allowed` membership on an optional allow-list. -/
def memAllowed (a : Option (List String)) (x : String) : Bool :=
  (a.getD []).contains x

/-- Python `"," in label`, decided on the underlying characters. -/
def hasComma (s : String) : Bool := s.data.contains ','

/-- Helper for `splitComma`: structural split of a character list at commas,
carrying the reversed current chunk. -/
def splitCommaAux : List Char → List Char → List String
  | [], acc => [String.mk acc.reverse]
  | c :: cs, acc =>
    if c == ',' then String.mk acc.reverse :: splitCommaAux cs []
    else splitCommaAux cs (c :: acc)

/-- Python `label.split(",")`: split a string at every comma (structural, so
that the kernel can evaluate it; `String.splitOn` does not reduce). -/
def splitComma (s : String) : List String := splitCommaAux s.data []

/-- `SELECT DISTINCT labels FROM telemetry WHERE id = ?1`. -/
def distinctLabels (db : List TelemetryRow) (i : String) : List String :=
  ((db.filter (fun r => r.id == i)).map TelemetryRow.labels).dedup

/-- `label_check(this, cur)`: resolves a raw label (single `"label"` or dual
`"key,cat"`) against static allow-lists or the dynamic cardinality bound
`MAX_LABELS`. -/
def label_check (m : Metric) (db : List TelemetryRow) : String :=
  let label := m.label.getD ""
  if hasComma label then
    let parts := splitComma label
    let key0 := parts.getD 0 ""
    let cat0 := parts.getD 1 ""
    if truthySet m.allowedKeys && truthySet m.allowedCats then
      let key := if memAllowed m.allowedKeys key0 then key0 else OTHER
      let cat := if memAllowed m.allowedCats cat0 then cat0 else OTHER
      key ++ "," ++ cat
    else
      let existing := (distinctLabels db m.name).map (fun l => splitComma l)
      let keys := (existing.map (fun ps => ps.getD 0 "")).dedup
      let cats := (existing.map (fun ps => ps.getD 1 "")).dedup
      let key :=
        if truthySet m.allowedKeys && !(memAllowed m.allowedKeys key0) then OTHER
        else if !(keys.contains key0) && MAX_LABELS ≤ keys.length then OTHER
        else key0
      let cat :=
        if truthySet m.allowedCats && !(memAllowed m.allowedCats cat0) then OTHER
        else if !(cats.contains cat0) && MAX_LABELS ≤ cats.length then OTHER
        else cat0
      key ++ "," ++ cat
  else
    if truthySet m.allowedLabels then
      if memAllowed m.allowedLabels label then label else OTHER
    else
      let existing := distinctLabels db m.name
      if !(existing.contains label) && MAX_LABELS ≤ existing.length then OTHER
      else label

/-- The `labels` variable computed at the top of `Metric.record`:
`""` unless `self.label` is truthy, in which case `label_check`. -/
def resolvedLabel (m : Metric) (db : List TelemetryRow) : String :=
  if truthyStr m.label then label_check m db else ""

/-- `Metric.record(self, fn)`: resolve the label once, then for each ping in
`send_in_pings` read the current value of the (id, ping, labels) triple, apply
`fn`, and upsert the row with this metric's lifetime and a fresh timestamp. -/
def Metric.record (m : Metric) (fn : Option Value → Value) (t : Nat) (s : State) : State :=
  let labels := resolvedLabel m s.telemetry
  { s with
    telemetry := m.sendInPings.foldl (fun db ping =>
      upsert db m.name ping m.lifetime labels (fn (selectValue db m.name ping labels)) t)
      s.telemetry }

/-- `Metric.get_value(self, ping=None)`: point read of the triple, using the
raw (unresolved) label and defaulting the ping to `send_in_pings[0]`
(Python `ping or self.send_in_pings[0]`). -/
def Metric.get_value (m : Metric) (pingArg : Option String) (s : State) : Option Value :=
  let ping := match pingArg with
    | some p => if p == "" then m.sendInPings.headD "" else p
    | none => m.sendInPings.headD ""
  let labels := if truthyStr m.label then m.label.getD "" else ""
  selectValue s.telemetry m.name ping labels

/-- `int(value or 0)` applied to a fetched optional value. -/
def valueToInt : Option Value → Int
  | some (Value.int n) => n
  | some (Value.str x) => if x == "" then 0 else (x.toInt?).getD 0
  | none => 0

/-- `Counter.add(self, amount=1)`: record with `value -> int(value or 0) + amount`. -/
def Counter.add (m : Metric) (amount : Int) (t : Nat) (s : State) : State :=
  Metric.record m (fun v => Value.int (valueToInt v + amount)) t s

/-- `StringMetric.set(self, value)`: record with `_ -> value`. -/
def StringMetric.set (m : Metric) (x : String) (t : Nat) (s : State) : State :=
  Metric.record m (fun _ => Value.str x) t s

/-- `Metric.__init__`: `send_in_pings or ["metrics"]`. -/
def mkMetric (name lifetime : String) (sendInPings : Option (List String)) : Metric :=
  { name := name
    lifetime := lifetime
    sendInPings := match sendInPings with
      | some (p :: ps) => p :: ps
      | _ => ["metrics"]
    label := none
    allowedLabels := none
    allowedKeys := none
    allowedCats := none }

/-- `LabeledCounter.get(self, label)`: a `Counter` carrying the raw label and
the parent's `allowed_labels`. -/
def LabeledCounter.get (name lifetime : String) (pings : Option (List String))
    (allowed : Option (List String)) (label : String) : Metric :=
  { mkMetric name lifetime pings with label := some label, allowedLabels := allowed }

/-- `DualLabeledCounter.get(self, key, cat)`: a `Counter` carrying the joined
label `f"{key},{cat}"` and the parent's `allowed_keys`/`allowed_cats`. -/
def DualLabeledCounter.get (name lifetime : String) (pings : Option (List String))
    (ak ac : Option (List String)) (key cat : String) : Metric :=
  { mkMetric name lifetime pings with
    label := some (key ++ "," ++ cat), allowedKeys := ak, allowedCats := ac }

/-- `LabeledCounter.get_value(self, ping=None)`: all `(labels, value)` pairs
stored for this id and ping, in row order (Python builds `dict(value)`). -/
def LabeledCounter.get_value (name : String) (pings : List String)
    (pingArg : Option String) (s : State) : List (String × Value) :=
  let ping := match pingArg with
    | some p => if p == "" then pings.headD "" else p
    | none => pings.headD ""
  (s.telemetry.filter (fun r => r.id == name && r.ping == ping)).map
    (fun r => (r.labels, r.value))

/-- First-match association lookup (Python `dict` read). -/
def assocGet {α : Type} (l : List (String × α)) (k : String) : Option α :=
  (l.find? (fun q => q.1 == k)).map (fun q => q.2)

/-- Python `dict` assignment: replace in place if the key is present, else
append at the end (insertion order preserved). -/
def assocSet {α : Type} (l : List (String × α)) (k : String) (v : α) :
    List (String × α) :=
  match l with
  | [] => [(k, v)]
  | (k', v') :: rest => if k' == k then (k, v) :: rest else (k', v') :: assocSet rest k v

/-- `DualLabeledCounter.get_value(self, ping=None)`: split each stored
`"key,cat"` label and build the nested `{key: {cat: value}}` mapping. -/
def DualLabeledCounter.get_value (name : String) (pings : List String)
    (pingArg : Option String) (s : State) : List (String × List (String × Value)) :=
  let ping := match pingArg with
    | some p => if p == "" then pings.headD "" else p
    | none => pings.headD ""
  let rows := (s.telemetry.filter (fun r => r.id == name && r.ping == ping)).map
    (fun r => (r.labels, r.value))
  rows.foldl (fun acc q =>
    let parts := splitComma q.1
    let key := parts.getD 0 ""
    let cat := parts.getD 1 ""
    assocSet acc key (assocSet ((assocGet acc key).getD []) cat q.2)) []

/-- The report name `"glean_ping_info"` used for the report-info metrics. -/
def PINFO : String := "glean_ping_info"

/-- The id `f"sequence#{ping}"` of the per-report sequence counter. -/
def seqId (p : String) : String := "sequence#" ++ p

/-- The id `f"start#{ping}"` of the stored start-time metric. -/
def startId (p : String) : String := "start#" ++ p

/-- `Counter(f"sequence#{ping}", "user", ["glean_ping_info"])`. -/
def seqMetric (p : String) : Metric := mkMetric (seqId p) "user" (some [PINFO])

/-- `StringMetric(f"start#{ping}", "user", ["glean_ping_info"])`. -/
def startMetric (p : String) : Metric := mkMetric (startId p) "user" (some [PINFO])

/-- Python `value or default` on a fetched optional value, yielding the
default string when the value is absent or falsy. -/
def pyOrVal : Option Value → String → Value
  | none, d => Value.str d
  | some (Value.str x), d => if x == "" then Value.str d else Value.str x
  | some (Value.int k), d => if k == 0 then Value.str d else Value.int k

/-- JSON encoding of an optional fetched value (`None` becomes `null`). -/
def jOfOpt : Option Value → JValue
  | none => JValue.null
  | some (Value.int n) => JValue.int n
  | some (Value.str x) => JValue.str x

/-- JSON encoding of a stored value. -/
def jval : Value → JValue
  | Value.int n => JValue.int n
  | Value.str x => JValue.str x

/-- The top-level fields of a JSON object (empty for scalars). -/
def topFields : JValue → List (String × JValue)
  | JValue.obj fs => fs
  | _ => []

/-- `get_ping_info(ping)`: bump the sequence counter by 1, take the start time
from the stored previous end time (falling back to `GLEAN_START_TIME`,
here the parameter `startTime`), capture a fresh end time (`nowStr`, for
`str(datetime.now())`), store it as the next start time, and return the
`ping_info` dict together with the updated database. -/
def get_ping_info (p startTime nowStr : String) (t : Nat) (s : State) :
    List (String × JValue) × State :=
  let s1 := Counter.add (seqMetric p) 1 t s
  let stv := Metric.get_value (startMetric p) none s1
  let st := pyOrVal stv startTime
  let endTime := nowStr
  let s2 := StringMetric.set (startMetric p) endTime t s1
  ([("seq", jOfOpt (Metric.get_value (seqMetric p) none s2)),
    ("start_time", jval st),
    ("end_time", JValue.str endTime)], s2)

/-- Reshaping step of `Ping.submit`: fold one telemetry row into the nested
`metrics` dict — unlabeled rows map to their value, single labels to
`{label: value}`, dual labels (containing a comma) to `{key: {cat: value}}`. -/
def addMetricsRow (metrics : List (String × JValue)) (i : String) (v : Value)
    (labels : String) : List (String × JValue) :=
  if labels == "" then assocSet metrics i (jval v)
  else if hasComma labels then
    let parts := splitComma labels
    let key := parts.getD 0 ""
    let cat := parts.getD 1 ""
    let outer := match assocGet metrics i with
      | some (JValue.obj o) => o
      | _ => []
    let inner := match assocGet outer key with
      | some (JValue.obj o) => o
      | _ => []
    assocSet metrics i (JValue.obj (assocSet outer key (JValue.obj (assocSet inner cat (jval v)))))
  else
    let outer := match assocGet metrics i with
      | some (JValue.obj o) => o
      | _ => []
    assocSet metrics i (JValue.obj (assocSet outer labels (jval v)))

/-- The `metrics` dict built by `Ping.submit` from the rows of one report. -/
def buildMetrics (rows : List TelemetryRow) : List (String × JValue) :=
  rows.foldl (fun acc r => addMetricsRow acc r.id r.value r.labels) []

/-- `Ping.submit(self)`: snapshot all rows of this report, reshape them,
delete the report's ping-lifetime rows, compute `get_ping_info`, and insert a
pending ping `{"ping_info": ..., "metrics": ...}` under the fresh document id
`docId` (for `str(uuid.uuid4())`) with `tries = 0`.  The Python method has no
return statement: it returns `None`, so the model returns only the state. -/
def Ping.submit (name docId startTime nowStr : String) (t : Nat) (s : State) : State :=
  let rows := s.telemetry.filter (fun r => r.ping == name)
  let metrics := buildMetrics rows
  let tel1 := s.telemetry.filter (fun r => !(r.ping == name && r.lifetime == "ping"))
  let pr := get_ping_info name startTime nowStr t { telemetry := tel1, pending := s.pending }
  let payload := JValue.obj [("ping_info", JValue.obj pr.1), ("metrics", JValue.obj metrics)]
  { telemetry := pr.2.telemetry
    pending := pr.2.pending ++ [⟨docId, name, payload, "\x7b\x7d", 0, t⟩] }

/-- The `(updated_at, tries)` sort key of `ORDER BY updated_at, tries`. -/
def rowKey (r : PendingRow) : Nat × Nat := (r.updatedAt, r.tries)

/-- Lexicographic order on the `(updated_at, tries)` sort key. -/
def keyLe (a b : Nat × Nat) : Prop := a.1 < b.1 ∨ (a.1 = b.1 ∧ a.2 ≤ b.2)

instance (a b : Nat × Nat) : Decidable (keyLe a b) := by
  unfold keyLe; infer_instance

/-- `SELECT id FROM pending_pings ORDER BY updated_at, tries LIMIT 1`: the
first row attaining the lexicographic minimum of `(updated_at, tries)`
(SQLite scans ties in rowid, i.e. insertion, order). -/
def minRow : List PendingRow → Option PendingRow
  | [] => none
  | r :: rs =>
    match minRow rs with
    | none => some r
    | some m => if keyLe (rowKey r) (rowKey m) then some r else some m

/-- The `SET tries = tries+1, updated_at = DATETIME('now')` update applied to
one claimed row, at current time `t`. -/
def bumpRow (t : Nat) (r : PendingRow) : PendingRow :=
  { r with tries := r.tries + 1, updatedAt := t }

/-- The atomic `UPDATE pending_pings SET tries = tries+1, updated_at = ...
WHERE id = (SELECT id ... ORDER BY updated_at, tries LIMIT 1)
RETURNING id, tries, ping, payload, metadata` followed by `fetchone`:
returns the claimed row (post-update) and the updated queue, or `none` and
the unchanged queue when the table is empty. -/
def claimNext (t : Nat) (q : List PendingRow) : Option PendingRow × List PendingRow :=
  match minRow q with
  | none => (none, q)
  | some m =>
    let q' := q.map (fun r => if r.id == m.id then bumpRow t r else r)
    (q'.find? (fun r => r.id == m.id), q')

/-- One hand-off of a claimed payload to the uploader (the `print` plus
`random.random()` attempt in `get_upload_task`), with the try count the
document had when handed over. -/
structure UploadEvent where
  id : String
  tries : Nat
deriving DecidableEq, Repr

/-- The `while True:` loop of `Uploader.get_upload_task`, fuel-bounded.
Each iteration claims the oldest pending document; if the queue is empty the
loop breaks.  If the claimed try count exceeds `MAX_TRIES` the document is
deleted — and, the loop having no `continue`, the payload is still handed to
the uploader afterwards.  On upload success (oracle true at this iteration)
the document is deleted; on failure it is left in place.  Returns the list of
uploader hand-offs and the final queue, or `none` if the fuel ran out before
the queue emptied. -/
def get_upload_task (oracle : Nat → Bool) :
    Nat → Nat → Nat → List PendingRow → Option (List UploadEvent × List PendingRow)
  | fuel, k, t, q =>
    match claimNext t q with
    | (none, q') => some ([], q')
    | (some v, q1) =>
      match fuel with
      | 0 => none
      | fuel' + 1 =>
        let q2 := if MAX_TRIES < v.tries then q1.filter (fun r => !(r.id == v.id)) else q1
        let q3 := if oracle k then q2.filter (fun r => !(r.id == v.id)) else q2
        match get_upload_task oracle fuel' (k + 1) (t + 1) q3 with
        | none => none
        | some (evs, qf) => some (⟨v.id, v.tries⟩ :: evs, qf)

/-- Per-row termination budget: a pending row can be claimed at most
`MAX_TRIES + 2 - min tries (MAX_TRIES + 1)` more times before it is deleted. -/
def rowMeasure (r : PendingRow) : Nat :=
  MAX_TRIES + 2 - min r.tries (MAX_TRIES + 1)

/-- Termination measure of the upload loop: total remaining claim budget. -/
def queueMeasure (q : List PendingRow) : Nat :=
  (q.map rowMeasure).sum

/-! Spec-side comparison definitions (refinement claims about the label
limiter state their rule in the spec's words; these definitions follow those
words and are compared against `label_check`). -/

/-- Following the spec's words for the dynamic single-label rule: pass the
label through if it is already stored for this metric id or fewer than
`MAX_LABELS` distinct labels exist, else divert to `__other__`. -/
def specResolveSingle (label : String) (existing : List String) : String :=
  if label ∈ existing ∨ existing.length < MAX_LABELS then label else OTHER

/-- Following the spec's words for one dimension of a dual label: pass the
value through if it is already in this dimension's distinct-value set or that
set has fewer than `MAX_LABELS` members, else divert to `__other__`. -/
def specResolveDim (x : String) (dim : List String) : String :=
  if x ∈ dim ∨ dim.length < MAX_LABELS then x else OTHER

/-- Following the spec's words for the static allow-list rule: a member
passes through, a non-member is replaced by `__other__`. -/
def specResolveStatic (allowed : List String) (label : String) : String :=
  if label ∈ allowed then label else OTHER

/-- The key dimension's distinct-value set, as `label_check` computes it:
first components of the stored distinct labels, deduplicated. -/
def dimKeys (db : List TelemetryRow) (i : String) : List String :=
  (((distinctLabels db i).map (fun l => splitComma l)).map (fun ps => ps.getD 0 "")).dedup

/-- The category dimension's distinct-value set, as `label_check` computes it:
second components of the stored distinct labels, deduplicated. -/
def dimCats (db : List TelemetryRow) (i : String) : List String :=
  (((distinctLabels db i).map (fun l => splitComma l)).map (fun ps => ps.getD 1 "")).dedup

/-! Concrete scenarios from the test suite, used by the cardinality claims. -/

/-- A labeled counter with no allow-list (`test_labeled_counter_many`). -/
def c4Metric (l : String) : Metric :=
  LabeledCounter.get "many-errors" "ping" none none l

/-- Record `add(1)` once under each of 20 distinct labels, empty store. -/
def c4State : State :=
  (List.range 20).foldl (fun s i => Counter.add (c4Metric ("a" ++ toString i)) 1 0 s) ⟨[], []⟩

/-- The resulting labeled-counter value. -/
def c4Value : List (String × Value) :=
  LabeledCounter.get_value "many-errors" ["metrics"] none c4State

/-- A dual-labeled counter with no allow-lists
(`test_dual_labeled_counter_many`). -/
def c5Metric (k c : String) : Metric :=
  DualLabeledCounter.get "dual-many" "ping" none none none k c

/-- The key-major recording loop of the 20-keys-by-5-categories scenario,
over an explicit list of key indices (so that its evaluation can be checked
in chunks). -/
def c5Chunk (ks : List Nat) (s : State) : State :=
  ks.foldl (fun s i =>
    (List.range 5).foldl (fun s' j =>
      Counter.add (c5Metric ("k" ++ toString i) ("c" ++ toString j)) 1 0 s') s) s

/-- Record `add(1)` once for each of 20 distinct keys crossed with 5 fixed
categories, empty store. -/
def c5State : State := c5Chunk (List.range 20) ⟨[], []⟩

/-- A stored row of the dual-labeled scenario metric. -/
def dmRow (l : String) (v : Int) : TelemetryRow :=
  ⟨"dual-many", "metrics", "ping", l, Value.int v, 0⟩

def c5Lit1 : List TelemetryRow :=
  [dmRow "k0,c0" 1,
   dmRow "k0,c1" 1,
   dmRow "k0,c2" 1,
   dmRow "k0,c3" 1,
   dmRow "k0,c4" 1,
   dmRow "k1,c0" 1,
   dmRow "k1,c1" 1,
   dmRow "k1,c2" 1,
   dmRow "k1,c3" 1,
   dmRow "k1,c4" 1,
   dmRow "k2,c0" 1,
   dmRow "k2,c1" 1,
   dmRow "k2,c2" 1,
   dmRow "k2,c3" 1,
   dmRow "k2,c4" 1,
   dmRow "k3,c0" 1,
   dmRow "k3,c1" 1,
   dmRow "k3,c2" 1,
   dmRow "k3,c3" 1,
   dmRow "k3,c4" 1,
   dmRow "k4,c0" 1,
   dmRow "k4,c1" 1,
   dmRow "k4,c2" 1,
   dmRow "k4,c3" 1,
   dmRow "k4,c4" 1]

def c5Lit2 : List TelemetryRow :=
  [dmRow "k0,c0" 1,
   dmRow "k0,c1" 1,
   dmRow "k0,c2" 1,
   dmRow "k0,c3" 1,
   dmRow "k0,c4" 1,
   dmRow "k1,c0" 1,
   dmRow "k1,c1" 1,
   dmRow "k1,c2" 1,
   dmRow "k1,c3" 1,
   dmRow "k1,c4" 1,
   dmRow "k2,c0" 1,
   dmRow "k2,c1" 1,
   dmRow "k2,c2" 1,
   dmRow "k2,c3" 1,
   dmRow "k2,c4" 1,
   dmRow "k3,c0" 1,
   dmRow "k3,c1" 1,
   dmRow "k3,c2" 1,
   dmRow "k3,c3" 1,
   dmRow "k3,c4" 1,
   dmRow "k4,c0" 1,
   dmRow "k4,c1" 1,
   dmRow "k4,c2" 1,
   dmRow "k4,c3" 1,
   dmRow "k4,c4" 1,
   dmRow "k5,c0" 1,
   dmRow "k5,c1" 1,
   dmRow "k5,c2" 1,
   dmRow "k5,c3" 1,
   dmRow "k5,c4" 1,
   dmRow "k6,c0" 1,
   dmRow "k6,c1" 1,
   dmRow "k6,c2" 1,
   dmRow "k6,c3" 1,
   dmRow "k6,c4" 1,
   dmRow "k7,c0" 1,
   dmRow "k7,c1" 1,
   dmRow "k7,c2" 1,
   dmRow "k7,c3" 1,
   dmRow "k7,c4" 1,
   dmRow "k8,c0" 1,
   dmRow "k8,c1" 1,
   dmRow "k8,c2" 1,
   dmRow "k8,c3" 1,
   dmRow "k8,c4" 1,
   dmRow "k9,c0" 1,
   dmRow "k9,c1" 1,
   dmRow "k9,c2" 1,
   dmRow "k9,c3" 1,
   dmRow "k9,c4" 1]

def c5Lit3 : List TelemetryRow :=
  [dmRow "k0,c0" 1,
   dmRow "k0,c1" 1,
   dmRow "k0,c2" 1,
   dmRow "k0,c3" 1,
   dmRow "k0,c4" 1,
   dmRow "k1,c0" 1,
   dmRow "k1,c1" 1,
   dmRow "k1,c2" 1,
   dmRow "k1,c3" 1,
   dmRow "k1,c4" 1,
   dmRow "k2,c0" 1,
   dmRow "k2,c1" 1,
   dmRow "k2,c2" 1,
   dmRow "k2,c3" 1,
   dmRow "k2,c4" 1,
   dmRow "k3,c0" 1,
   dmRow "k3,c1" 1,
   dmRow "k3,c2" 1,
   dmRow "k3,c3" 1,
   dmRow "k3,c4" 1,
   dmRow "k4,c0" 1,
   dmRow "k4,c1" 1,
   dmRow "k4,c2" 1,
   dmRow "k4,c3" 1,
   dmRow "k4,c4" 1,
   dmRow "k5,c0" 1,
   dmRow "k5,c1" 1,
   dmRow "k5,c2" 1,
   dmRow "k5,c3" 1,
   dmRow "k5,c4" 1,
   dmRow "k6,c0" 1,
   dmRow "k6,c1" 1,
   dmRow "k6,c2" 1,
   dmRow "k6,c3" 1,
   dmRow "k6,c4" 1,
   dmRow "k7,c0" 1,
   dmRow "k7,c1" 1,
   dmRow "k7,c2" 1,
   dmRow "k7,c3" 1,
   dmRow "k7,c4" 1,
   dmRow "k8,c0" 1,
   dmRow "k8,c1" 1,
   dmRow "k8,c2" 1,
   dmRow "k8,c3" 1,
   dmRow "k8,c4" 1,
   dmRow "k9,c0" 1,
   dmRow "k9,c1" 1,
   dmRow "k9,c2" 1,
   dmRow "k9,c3" 1,
   dmRow "k9,c4" 1,
   dmRow "k10,c0" 1,
   dmRow "k10,c1" 1,
   dmRow "k10,c2" 1,
   dmRow "k10,c3" 1,
   dmRow "k10,c4" 1,
   dmRow "k11,c0" 1,
   dmRow "k11,c1" 1,
   dmRow "k11,c2" 1,
   dmRow "k11,c3" 1,
   dmRow "k11,c4" 1,
   dmRow "k12,c0" 1,
   dmRow "k12,c1" 1,
   dmRow "k12,c2" 1,
   dmRow "k12,c3" 1,
   dmRow "k12,c4" 1,
   dmRow "k13,c0" 1,
   dmRow "k13,c1" 1,
   dmRow "k13,c2" 1,
   dmRow "k13,c3" 1,
   dmRow "k13,c4" 1,
   dmRow "k14,c0" 1,
   dmRow "k14,c1" 1,
   dmRow "k14,c2" 1,
   dmRow "k14,c3" 1,
   dmRow "k14,c4" 1]

def c5Lit4 : List TelemetryRow :=
  [dmRow "k0,c0" 1,
   dmRow "k0,c1" 1,
   dmRow "k0,c2" 1,
   dmRow "k0,c3" 1,
   dmRow "k0,c4" 1,
   dmRow "k1,c0" 1,
   dmRow "k1,c1" 1,
   dmRow "k1,c2" 1,
   dmRow "k1,c3" 1,
   dmRow "k1,c4" 1,
   dmRow "k2,c0" 1,
   dmRow "k2,c1" 1,
   dmRow "k2,c2" 1,
   dmRow "k2,c3" 1,
   dmRow "k2,c4" 1,
   dmRow "k3,c0" 1,
   dmRow "k3,c1" 1,
   dmRow "k3,c2" 1,
   dmRow "k3,c3" 1,
   dmRow "k3,c4" 1,
   dmRow "k4,c0" 1,
   dmRow "k4,c1" 1,
   dmRow "k4,c2" 1,
   dmRow "k4,c3" 1,
   dmRow "k4,c4" 1,
   dmRow "k5,c0" 1,
   dmRow "k5,c1" 1,
   dmRow "k5,c2" 1,
   dmRow "k5,c3" 1,
   dmRow "k5,c4" 1,
   dmRow "k6,c0" 1,
   dmRow "k6,c1" 1,
   dmRow "k6,c2" 1,
   dmRow "k6,c3" 1,
   dmRow "k6,c4" 1,
   dmRow "k7,c0" 1,
   dmRow "k7,c1" 1,
   dmRow "k7,c2" 1,
   dmRow "k7,c3" 1,
   dmRow "k7,c4" 1,
   dmRow "k8,c0" 1,
   dmRow "k8,c1" 1,
   dmRow "k8,c2" 1,
   dmRow "k8,c3" 1,
   dmRow "k8,c4" 1,
   dmRow "k9,c0" 1,
   dmRow "k9,c1" 1,
   dmRow "k9,c2" 1,
   dmRow "k9,c3" 1,
   dmRow "k9,c4" 1,
   dmRow "k10,c0" 1,
   dmRow "k10,c1" 1,
   dmRow "k10,c2" 1,
   dmRow "k10,c3" 1,
   dmRow "k10,c4" 1,
   dmRow "k11,c0" 1,
   dmRow "k11,c1" 1,
   dmRow "k11,c2" 1,
   dmRow "k11,c3" 1,
   dmRow "k11,c4" 1,
   dmRow "k12,c0" 1,
   dmRow "k12,c1" 1,
   dmRow "k12,c2" 1,
   dmRow "k12,c3" 1,
   dmRow "k12,c4" 1,
   dmRow "k13,c0" 1,
   dmRow "k13,c1" 1,
   dmRow "k13,c2" 1,
   dmRow "k13,c3" 1,
   dmRow "k13,c4" 1,
   dmRow "k14,c0" 1,
   dmRow "k14,c1" 1,
   dmRow "k14,c2" 1,
   dmRow "k14,c3" 1,
   dmRow "k14,c4" 1,
   dmRow "k15,c0" 1,
   dmRow "k15,c1" 1,
   dmRow "k15,c2" 1,
   dmRow "k15,c3" 1,
   dmRow "k15,c4" 1,
   dmRow "__other__,c0" 4,
   dmRow "__other__,c1" 4,
   dmRow "__other__,c2" 4,
   dmRow "__other__,c3" 4,
   dmRow "__other__,c4" 4]

/-- The resulting dual-labeled-counter value. -/
def c5Value : List (String × List (String × Value)) :=
  DualLabeledCounter.get_value "dual-many" ["metrics"] none c5State

/-- A labeled counter with static allow-list `{"predefined"}`
(`test_labeled_counter_static`). -/
def c8Metric (l : String) : Metric :=
  LabeledCounter.get "static-labeled" "ping" (some ["metrics"]) (some ["predefined"]) l

/-- Record `"predefined"` then `"random"`, `add(1)` each, empty store. -/
def c8State : State :=
  Counter.add (c8Metric "random") 1 1 (Counter.add (c8Metric "predefined") 1 0 ⟨[], []⟩)

/-- The resulting labeled-counter value. -/
def c8Value : List (String × Value) :=
  LabeledCounter.get_value "static-labeled" ["metrics"] none c8State

/-- One step of the `for ping in pings` loop of `Metric.record`. -/
def recordStep (m : Metric) (fn : Option Value → Value) (labels : String) (t : Nat)
    (db : List TelemetryRow) (ping : String) : List TelemetryRow :=
  upsert db m.name ping m.lifetime labels (fn (selectValue db m.name ping labels)) t

/-- The keep-predicate of submit's
`DELETE FROM telemetry WHERE ping = ?1 AND lifetime = 'ping'`. -/
def keepAfterSubmit (name : String) (r : TelemetryRow) : Bool :=
  !(r.ping == name && r.lifetime == "ping")

/-- The raw label key a `Metric.get_value` read uses. -/
def rawLabelKey (m : Metric) : String :=
  if truthyStr m.label then m.label.getD "" else ""

/-- A queue of two pending documents with distinct ids; the second has the
older timestamp. -/
def c6DocA : PendingRow := ⟨"id-a", "metrics", JValue.null, "\x7b\x7d", 0, 10⟩

/-- See `c6DocA`. -/
def c6DocB : PendingRow := ⟨"id-b", "metrics", JValue.null, "\x7b\x7d", 1, 3⟩

/-- The all-failures upload oracle (`random.random() < 0.5` never true). -/
def allFail : Nat → Bool := fun _ => false

/-- A freshly enqueued pending ping (`tries = 0`), for the retry-bound
scenario. -/
def c2Doc : PendingRow :=
  ⟨"doc-1", "metrics", JValue.null, "\x7b\x7d", 0, 0⟩

/-! String split lemmas for the label encoding. -/

theorem splitCommaAux_of_not_mem (cs : List Char) (acc : List Char) (h : ',' ∉ cs) :
    splitCommaAux cs acc = [String.mk (acc.reverse ++ cs)] := by
  induction cs generalizing acc with
  | nil => simp [splitCommaAux]
  | cons c cs ih =>
    simp only [List.mem_cons, not_or] at h
    have hc : (c == ',') = false := by
      cases hcc : c == ','
      · rfl
      · exact absurd (beq_iff_eq.mp hcc).symm h.1
    simp [splitCommaAux, hc, ih _ h.2]

theorem splitComma_of_not_mem (s : String) (h : ',' ∉ s.data) : splitComma s = [s] := by
  obtain ⟨data⟩ := s
  simp [splitComma, splitCommaAux_of_not_mem _ _ h]

theorem splitCommaAux_append (k c acc : List Char) (hk : ',' ∉ k) :
    splitCommaAux (k ++ ',' :: c) acc =
      String.mk (acc.reverse ++ k) :: splitCommaAux c [] := by
  induction k generalizing acc with
  | nil => simp [splitCommaAux]
  | cons x xs ih =>
    simp only [List.mem_cons, not_or] at hk
    have hx : (x == ',') = false := by
      cases hxx : x == ','
      · rfl
      · exact absurd (beq_iff_eq.mp hxx).symm hk.1
    simp [splitCommaAux, hx, ih _ hk.2]

theorem splitComma_join (k c : String) (hk : ',' ∉ k.data) (hc : ',' ∉ c.data) :
    splitComma (k ++ "," ++ c) = [k, c] := by
  have hdata : (k ++ "," ++ c).data = k.data ++ ',' :: c.data := by
    simp [String.data_append]
  rw [splitComma, hdata, splitCommaAux_append _ _ _ hk,
    splitCommaAux_of_not_mem _ _ hc]
  cases k
  cases c
  simp

theorem hasComma_join (k c : String) : hasComma (k ++ "," ++ c) = true := by
  have hdata : (k ++ "," ++ c).data = k.data ++ ',' :: c.data := by
    simp [String.data_append]
  have : ',' ∈ (k ++ "," ++ c).data := by
    rw [hdata]
    simp
  simp only [hasComma]
  exact List.elem_iff.mpr this

/-- `List.contains` decides membership (bridge to `∈`). -/
theorem contains_true_iff {α : Type} [BEq α] [LawfulBEq α] (l : List α) (a : α) :
    l.contains a = true ↔ a ∈ l :=
  List.elem_iff

/-- `List.contains` returning false decides non-membership. -/
theorem contains_false_iff {α : Type} [BEq α] [LawfulBEq α] (l : List α) (a : α) :
    l.contains a = false ↔ a ∉ l := by
  constructor
  · intro h hmem
    have h2 := (contains_true_iff l a).mpr hmem
    rw [h2] at h
    cases h
  · intro h
    cases hc : l.contains a
    · rfl
    · exact absurd ((contains_true_iff l a).mp hc) h

/-- The dynamic-bucket `if` of `label_check` written with the spec's
membership-or-room condition. -/
theorem dynIf_eq_spec (x : String) (e : List String) :
    (if !(e.contains x) && MAX_LABELS ≤ e.length then OTHER else x) =
      if x ∈ e ∨ e.length < MAX_LABELS then x else OTHER := by
  cases hc : e.contains x with
  | true =>
    have hm : x ∈ e := (contains_true_iff e x).mp hc
    simp [hm]
  | false =>
    have hm : x ∉ e := (contains_false_iff e x).mp hc
    by_cases hlen : e.length < MAX_LABELS
    · simp [hm, hlen, Nat.not_le.mpr hlen]
    · simp [hm, hlen, Nat.not_lt.mp hlen]

/-- C4: for a labeled counter with no allow-list the dynamic rule passes a
label through iff it is already stored for the metric id (across all reports)
or fewer than `MAX_LABELS = 16` distinct labels exist, else diverts it to
`__other__`; and recording `add(1)` once under each of 20 distinct labels
starting from an empty store yields exactly the first 16 labels with count 1
plus an `__other__` bucket with count 4. -/
theorem c4_labeled_cardinality :
    (∀ (m : Metric) (db : List TelemetryRow) (l : String),
      m.label = some l → hasComma l = false → truthySet m.allowedLabels = false →
      label_check m db = specResolveSingle l (distinctLabels db m.name))
    ∧ c4Value =
        ((List.range 16).map (fun i => ("a" ++ toString i, Value.int 1)))
          ++ [(OTHER, Value.int 4)] := by
  constructor
  · intro m db l hl hcomma hallow
    rw [label_check, hl]
    simp only [Option.getD_some, hcomma, Bool.false_eq_true, if_false, hallow,
      specResolveSingle]
    exact dynIf_eq_spec l (distinctLabels db m.name)
  · decide

/-- Witness for the general rule of C4 at a concrete metric and store. -/
theorem c4_labeled_cardinality_witness :
    label_check (c4Metric "x") [] = specResolveSingle "x" (distinctLabels [] "many-errors") :=
  c4_labeled_cardinality.1 (c4Metric "x") [] "x" rfl (by decide) rfl

/-- C8: a static allow-list short-circuits dynamic counting entirely — the
resolved label depends only on allow-list membership (a member passes, a
non-member becomes `__other__`), not on the store; and with
`allowedLabels = {"predefined"}` recording `"predefined"` then `"random"`
yields exactly `{"predefined": 1, "__other__": 1}`. -/
theorem c8_static_allowlist :
    (∀ (m : Metric) (db : List TelemetryRow) (l : String),
      m.label = some l → hasComma l = false → truthySet m.allowedLabels = true →
      label_check m db = specResolveStatic (m.allowedLabels.getD []) l)
    ∧ c8Value = [("predefined", Value.int 1), (OTHER, Value.int 1)] := by
  constructor
  · intro m db l hl hcomma hallow
    rw [label_check, hl]
    simp only [Option.getD_some, hcomma, Bool.false_eq_true, if_false, hallow,
      if_true, specResolveStatic, memAllowed]
    cases hc : (m.allowedLabels.getD []).contains l with
    | true =>
      have hm : l ∈ m.allowedLabels.getD [] := (contains_true_iff _ l).mp hc
      simp [hm]
    | false =>
      have hm : l ∉ m.allowedLabels.getD [] := (contains_false_iff _ l).mp hc
      simp [hm]
  · decide

/-- Witness for the general rule of C8 at a concrete metric and store. -/
theorem c8_static_allowlist_witness :
    label_check (c8Metric "random") [] = specResolveStatic ["predefined"] "random" :=
  c8_static_allowlist.1 (c8Metric "random") [] "random" rfl (by decide) rfl

theorem c5Chunk_append (a b : List Nat) (s : State) :
    c5Chunk (a ++ b) s = c5Chunk b (c5Chunk a s) := by
  rw [c5Chunk, c5Chunk, c5Chunk, List.foldl_append]

theorem c5Chunk_pending (ks : List Nat) (s : State) :
    (c5Chunk ks s).pending = s.pending := by
  induction ks generalizing s with
  | nil => rfl
  | cons k ksr ih =>
    rw [show c5Chunk (k :: ksr) s = c5Chunk ksr ((List.range 5).foldl (fun s' j =>
        Counter.add (c5Metric ("k" ++ toString k) ("c" ++ toString j)) 1 0 s') s) from rfl]
    rw [ih]
    rfl

theorem state_eq_of_fields (s : State) (tel : List TelemetryRow) (pnd : List PendingRow)
    (h1 : s.telemetry = tel) (h2 : s.pending = pnd) : s = ⟨tel, pnd⟩ := by
  cases s
  cases h1
  cases h2
  rfl

set_option maxRecDepth 8000 in
set_option maxHeartbeats 1600000 in
/-- Kernel evaluation of the scenario's first five keys. -/
theorem c5_chunk1 : (c5Chunk [0, 1, 2, 3, 4] ⟨[], []⟩).telemetry = c5Lit1 := by decide

set_option maxRecDepth 8000 in
set_option maxHeartbeats 1600000 in
/-- Kernel evaluation of the scenario's keys 5 to 9. -/
theorem c5_chunk2 : (c5Chunk [5, 6, 7, 8, 9] ⟨c5Lit1, []⟩).telemetry = c5Lit2 := by decide

set_option maxRecDepth 8000 in
set_option maxHeartbeats 1600000 in
/-- Kernel evaluation of the scenario's keys 10 to 14. -/
theorem c5_chunk3 : (c5Chunk [10, 11, 12, 13, 14] ⟨c5Lit2, []⟩).telemetry = c5Lit3 := by decide

set_option maxRecDepth 8000 in
set_option maxHeartbeats 1600000 in
/-- Kernel evaluation of the scenario's keys 15 to 19: key 16 onward divert
to the `__other__` bucket. -/
theorem c5_chunk4 : (c5Chunk [15, 16, 17, 18, 19] ⟨c5Lit3, []⟩).telemetry = c5Lit4 := by decide

/-- The full scenario store, assembled from the four chunk evaluations. -/
theorem c5_state_eval : c5State = ⟨c5Lit4, []⟩ := by
  have hr : List.range 20 =
      [0, 1, 2, 3, 4] ++ ([5, 6, 7, 8, 9] ++ ([10, 11, 12, 13, 14] ++ [15, 16, 17, 18, 19])) := by
    decide
  have s1 : c5Chunk [0, 1, 2, 3, 4] ⟨[], []⟩ = ⟨c5Lit1, []⟩ :=
    state_eq_of_fields _ _ _ c5_chunk1 (c5Chunk_pending _ _)
  have s2 : c5Chunk [5, 6, 7, 8, 9] ⟨c5Lit1, []⟩ = ⟨c5Lit2, []⟩ :=
    state_eq_of_fields _ _ _ c5_chunk2 (c5Chunk_pending _ _)
  have s3 : c5Chunk [10, 11, 12, 13, 14] ⟨c5Lit2, []⟩ = ⟨c5Lit3, []⟩ :=
    state_eq_of_fields _ _ _ c5_chunk3 (c5Chunk_pending _ _)
  have s4 : c5Chunk [15, 16, 17, 18, 19] ⟨c5Lit3, []⟩ = ⟨c5Lit4, []⟩ :=
    state_eq_of_fields _ _ _ c5_chunk4 (c5Chunk_pending _ _)
  rw [c5State, hr, c5Chunk_append, c5Chunk_append, c5Chunk_append, s1, s2, s3, s4]

set_option maxRecDepth 8000 in
set_option maxHeartbeats 1600000 in
/-- Kernel evaluation of the 20-keys-by-5-categories scenario. -/
theorem c5_concrete_eval :
    c5Value =
      ((List.range 16).map (fun i => ("k" ++ toString i,
          (List.range 5).map (fun j => ("c" ++ toString j, Value.int 1)))))
        ++ [(OTHER, (List.range 5).map (fun j => ("c" ++ toString j, Value.int 4)))] := by
  rw [c5Value, c5_state_eval]
  decide

/-- C5: for a dual-labeled counter with no allow-lists the two dimensions are
resolved independently, each against its own distinct-value set capped at
`MAX_LABELS = 16`, and re-joined with the `","` delimiter; and recording
`add(1)` for each of 20 distinct keys crossed with 5 fixed categories yields
16 real keys each mapping to all 5 categories with count 1, plus an
`__other__` key mapping to the same 5 categories with count 4 each. -/
theorem c5_dual_cardinality :
    (∀ (m : Metric) (db : List TelemetryRow) (key cat : String),
      m.label = some (key ++ "," ++ cat) → ',' ∉ key.data → ',' ∉ cat.data →
      truthySet m.allowedKeys = false → truthySet m.allowedCats = false →
      label_check m db =
        specResolveDim key (dimKeys db m.name) ++ "," ++ specResolveDim cat (dimCats db m.name))
    ∧ c5Value =
        ((List.range 16).map (fun i => ("k" ++ toString i,
            (List.range 5).map (fun j => ("c" ++ toString j, Value.int 1)))))
          ++ [(OTHER, (List.range 5).map (fun j => ("c" ++ toString j, Value.int 4)))] := by
  constructor
  · intro m db key cat hl hk hc hak hac
    rw [label_check, hl]
    simp only [Option.getD_some, hasComma_join, if_true, splitComma_join _ _ hk hc,
      hak, hac, Bool.false_and, Bool.false_eq_true, if_false]
    simp only [List.getD_cons_zero, List.getD_cons_succ]
    rw [dimKeys, dimCats, specResolveDim, specResolveDim]
    rw [← dynIf_eq_spec key, ← dynIf_eq_spec cat]
  · exact c5_concrete_eval

/-- Witness for the general rule of C5 at a concrete metric and store. -/
theorem c5_dual_cardinality_witness :
    label_check (c5Metric "x" "y") [] =
      specResolveDim "x" (dimKeys [] "dual-many") ++ "," ++ specResolveDim "y" (dimCats [] "dual-many") :=
  c5_dual_cardinality.1 (c5Metric "x" "y") [] "x" "y" rfl (by decide) (by decide) rfl rfl

/-! Store-level lemmas: how `selectRow`/`selectValue` interact with `upsert`,
`filter` (the submit-time delete), and the per-ping fold of `Metric.record`. -/

theorem rowMatch_update (lt : String) (v : Value) (t : Nat) (i' p' l' : String)
    (r : TelemetryRow) :
    rowMatch i' p' l' { r with lifetime := lt, value := v, updatedAt := t }
      = rowMatch i' p' l' r := rfl

theorem rowMatch_upsertFun (i p l lt i' p' l' : String) (v : Value) (t : Nat)
    (r : TelemetryRow) :
    rowMatch i' p' l'
        (if rowMatch i p l r then { r with lifetime := lt, value := v, updatedAt := t } else r)
      = rowMatch i' p' l' r := by
  by_cases h : rowMatch i p l r = true
  · rw [if_pos h]
    exact rowMatch_update lt v t i' p' l' r
  · rw [if_neg h]

theorem rowMatch_fields {i p l : String} {r : TelemetryRow}
    (h : rowMatch i p l r = true) : r.id = i ∧ r.ping = p ∧ r.labels = l := by
  simp only [rowMatch, Bool.and_eq_true, beq_iff_eq] at h
  exact ⟨h.1.1, h.1.2, h.2⟩

theorem selectRow_upsert_same (db : List TelemetryRow) (i p lt l : String) (v : Value)
    (t : Nat) :
    selectRow (upsert db i p lt l v t) i p l = some ⟨i, p, lt, l, v, t⟩ := by
  unfold upsert selectRow
  by_cases hf : (db.find? (rowMatch i p l)).isSome = true
  · rw [if_pos hf, List.find?_map]
    have hcomp :
        (rowMatch i p l ∘ fun r =>
          if rowMatch i p l r then { r with lifetime := lt, value := v, updatedAt := t } else r)
          = rowMatch i p l :=
      funext (fun r => rowMatch_upsertFun i p l lt i p l v t r)
    rw [hcomp]
    obtain ⟨r, hr⟩ := Option.isSome_iff_exists.mp hf
    rw [hr, Option.map_some' r]
    have hm := rowMatch_fields (List.find?_some hr)
    have hmatch : rowMatch i p l r = true := List.find?_some hr
    rw [if_pos hmatch]
    obtain ⟨mid, mping, mlt, mlabels, mv, mt⟩ := r
    obtain ⟨h1, h2, h3⟩ := hm
    simp only at h1 h2 h3
    rw [h1, h2, h3]
  · rw [if_neg hf, List.find?_append]
    rw [Option.not_isSome_iff_eq_none.mp hf]
    have hnew : rowMatch i p l ⟨i, p, lt, l, v, t⟩ = true := by simp [rowMatch]
    rw [List.find?_cons_of_pos _ hnew]
    rfl

theorem selectRow_upsert_ne (db : List TelemetryRow) (i p l i' p' lt l' : String)
    (v : Value) (t : Nat) (hne : ¬(i = i' ∧ p = p' ∧ l = l')) :
    selectRow (upsert db i' p' lt l' v t) i p l = selectRow db i p l := by
  unfold upsert selectRow
  by_cases hf : (db.find? (rowMatch i' p' l')).isSome = true
  · rw [if_pos hf, List.find?_map]
    have hcomp :
        (rowMatch i p l ∘ fun r =>
          if rowMatch i' p' l' r then { r with lifetime := lt, value := v, updatedAt := t } else r)
          = rowMatch i p l :=
      funext (fun r => rowMatch_upsertFun i' p' l' lt i p l v t r)
    rw [hcomp]
    cases hfind : db.find? (rowMatch i p l) with
    | none => simp
    | some r =>
      have hm := rowMatch_fields (List.find?_some hfind)
      have hne2 : rowMatch i' p' l' r = false := by
        cases hmm : rowMatch i' p' l' r
        · rfl
        · obtain ⟨h1, h2, h3⟩ := rowMatch_fields hmm
          exact absurd ⟨hm.1.symm.trans h1, hm.2.1.symm.trans h2, hm.2.2.symm.trans h3⟩ hne
      simp [hne2]
  · rw [if_neg hf, List.find?_append]
    have hnew : rowMatch i p l ⟨i', p', lt, l', v, t⟩ = false := by
      cases hmm : rowMatch i p l ⟨i', p', lt, l', v, t⟩
      · rfl
      · obtain ⟨h1, h2, h3⟩ := rowMatch_fields hmm
        exact absurd ⟨h1.symm, h2.symm, h3.symm⟩ hne
    simp [List.find?, hnew]

theorem selectValue_upsert_same (db : List TelemetryRow) (i p lt l : String) (v : Value)
    (t : Nat) :
    selectValue (upsert db i p lt l v t) i p l = some v := by
  rw [selectValue, selectRow_upsert_same]
  rfl

theorem selectValue_upsert_ne (db : List TelemetryRow) (i p l i' p' lt l' : String)
    (v : Value) (t : Nat) (hne : ¬(i = i' ∧ p = p' ∧ l = l')) :
    selectValue (upsert db i' p' lt l' v t) i p l = selectValue db i p l := by
  rw [selectValue, selectRow_upsert_ne db i p l i' p' lt l' v t hne]
  rfl

theorem find?_filter_of_imp {α : Type} (l : List α) (pr keep : α → Bool)
    (h : ∀ x ∈ l, pr x = true → keep x = true) :
    (l.filter keep).find? pr = l.find? pr := by
  induction l with
  | nil => rfl
  | cons x xs ih =>
    have htail : ∀ y ∈ xs, pr y = true → keep y = true :=
      fun y hy => h y (List.mem_cons_of_mem x hy)
    by_cases hk : keep x = true
    · rw [List.filter_cons_of_pos hk]
      by_cases hp : pr x = true
      · rw [List.find?_cons_of_pos _ hp, List.find?_cons_of_pos _ hp]
      · rw [List.find?_cons_of_neg _ hp, List.find?_cons_of_neg _ hp]
        exact ih htail
    · have hp : ¬pr x = true := fun hpx => hk (h x (List.mem_cons_self x xs) hpx)
      rw [List.filter_cons_of_neg hk, List.find?_cons_of_neg _ hp]
      exact ih htail

/-! Lemmas about the per-ping upsert fold inside `Metric.record`. -/

theorem record_eq_foldl (m : Metric) (fn : Option Value → Value) (t : Nat) (s : State) :
    Metric.record m fn t s =
      { s with telemetry :=
          m.sendInPings.foldl (recordStep m fn (resolvedLabel m s.telemetry) t) s.telemetry } :=
  rfl

theorem recordFold_selectRow_other (m : Metric) (fn : Option Value → Value)
    (labels : String) (t : Nat) (ps : List String) (db : List TelemetryRow)
    (i p l : String) (h : ∀ ping ∈ ps, ¬(i = m.name ∧ p = ping ∧ l = labels)) :
    selectRow (ps.foldl (recordStep m fn labels t) db) i p l = selectRow db i p l := by
  induction ps generalizing db with
  | nil => rfl
  | cons q qs ih =>
    rw [List.foldl_cons]
    rw [ih _ (fun ping hping => h ping (List.mem_cons_of_mem q hping))]
    exact selectRow_upsert_ne db i p l m.name q m.lifetime labels _ t
      (h q (List.mem_cons_self q qs))

theorem recordFold_selectValue_mem (m : Metric) (fn : Option Value → Value)
    (labels : String) (t : Nat) (ps : List String) (db : List TelemetryRow)
    (p : String) (hmem : p ∈ ps) (hnd : ps.Nodup) :
    selectValue (ps.foldl (recordStep m fn labels t) db) m.name p labels
      = some (fn (selectValue db m.name p labels)) := by
  induction ps generalizing db with
  | nil => cases hmem
  | cons q qs ih =>
    rw [List.foldl_cons]
    rcases List.mem_cons.mp hmem with hq | hqs
    · subst hq
      have hnotin : p ∉ qs := (List.nodup_cons.mp hnd).1
      have hother : ∀ ping ∈ qs, ¬(m.name = m.name ∧ p = ping ∧ labels = labels) := by
        intro ping hping hcon
        exact hnotin (hcon.2.1 ▸ hping)
      rw [selectValue, recordFold_selectRow_other m fn labels t qs _ _ _ _ hother,
        ← selectValue]
      exact selectValue_upsert_same db m.name p m.lifetime labels _ t
    · have hq : p ≠ q := by
        intro he
        exact (List.nodup_cons.mp hnd).1 (he ▸ hqs)
      rw [ih _ hqs (List.nodup_cons.mp hnd).2]
      simp only [recordStep]
      rw [selectValue_upsert_ne db m.name p labels m.name q m.lifetime labels _ t
        (fun hcon => hq hcon.2.1)]

/-- C9: one `Metric.record` call resolves the label once against the
pre-state, then for each configured report name applies the update function
to that report's own current stored value of the (metric id, report name,
resolved label) triple and upserts only that row; every row with a different
triple — and the whole pending table — is left unchanged. -/
theorem c9_record_frame (m : Metric) (fn : Option Value → Value) (t : Nat) (s : State)
    (hnd : m.sendInPings.Nodup) :
    (∀ p ∈ m.sendInPings,
      selectValue (Metric.record m fn t s).telemetry m.name p (resolvedLabel m s.telemetry)
        = some (fn (selectValue s.telemetry m.name p (resolvedLabel m s.telemetry))))
    ∧ (∀ i p l, ¬(i = m.name ∧ p ∈ m.sendInPings ∧ l = resolvedLabel m s.telemetry) →
      selectRow (Metric.record m fn t s).telemetry i p l = selectRow s.telemetry i p l)
    ∧ (Metric.record m fn t s).pending = s.pending := by
  refine ⟨?_, ?_, rfl⟩
  · intro p hp
    rw [record_eq_foldl]
    exact recordFold_selectValue_mem m fn (resolvedLabel m s.telemetry) t
      m.sendInPings s.telemetry p hp hnd
  · intro i p l hne
    rw [record_eq_foldl]
    exact recordFold_selectRow_other m fn (resolvedLabel m s.telemetry) t
      m.sendInPings s.telemetry i p l
      (fun ping hping hcon => hne ⟨hcon.1, hcon.2.1 ▸ hping, hcon.2.2⟩)

/-- Witness for C9: a metric sent in two reports, recorded once on the empty
store. -/
theorem c9_record_frame_witness :
    selectValue
        (Metric.record (mkMetric "m1" "ping" (some ["a", "b"])) (fun _ => Value.int 7) 0
          ⟨[], []⟩).telemetry
        "m1" "a" (resolvedLabel (mkMetric "m1" "ping" (some ["a", "b"])) [])
      = some (Value.int 7) := by
  have h := c9_record_frame (mkMetric "m1" "ping" (some ["a", "b"]))
    (fun _ => Value.int 7) 0 ⟨[], []⟩ (by decide)
  exact h.1 "a" (by decide)

/-! `Ping.submit`: unfolded form and the lifetime / payload claims. -/

theorem submit_telemetry (name docId st n : String) (t : Nat) (s : State) :
    (Ping.submit name docId st n t s).telemetry =
      upsert
        (upsert (s.telemetry.filter (keepAfterSubmit name))
          (seqId name) PINFO "user" ""
          (Value.int (valueToInt (selectValue
            (s.telemetry.filter (keepAfterSubmit name)) (seqId name) PINFO "") + 1)) t)
        (startId name) PINFO "user" "" (Value.str n) t := rfl

theorem submit_pending_shape (name docId st n : String) (t : Nat) (s : State) :
    (Ping.submit name docId st n t s).pending =
      s.pending ++ [⟨docId, name,
        JValue.obj
          [("ping_info", JValue.obj (get_ping_info name st n t
              ⟨s.telemetry.filter (keepAfterSubmit name), s.pending⟩).1),
           ("metrics", JValue.obj (buildMetrics (s.telemetry.filter (fun r => r.ping == name))))],
        "\x7b\x7d", 0, t⟩] := rfl

theorem get_value_none_eq (m : Metric) (s : State) :
    Metric.get_value m none s
      = selectValue s.telemetry m.name (m.sendInPings.headD "") (rawLabelKey m) := rfl

/-- C3: submitting a report clears ping-lifetime metrics of that report and
preserves user-lifetime metrics: if every stored row of the metric under this
report name has lifetime `ping`, a `get_value` after `Ping.submit` of that
report name is absent; if every stored row of the metric's triple has
lifetime `user`, `get_value` after the submit returns the same value as
before. -/
theorem c3_lifetime (m : Metric) (s : State) (docId st n : String) (t : Nat)
    (hp : m.sendInPings.headD "" ≠ PINFO) :
    ((∀ r ∈ s.telemetry, r.id = m.name → r.ping = m.sendInPings.headD "" →
        r.lifetime = "ping") →
      Metric.get_value m none
          (Ping.submit (m.sendInPings.headD "") docId st n t s) = none)
    ∧ ((∀ r ∈ s.telemetry, r.id = m.name → r.ping = m.sendInPings.headD "" →
        r.labels = rawLabelKey m → r.lifetime = "user") →
      Metric.get_value m none
          (Ping.submit (m.sendInPings.headD "") docId st n t s)
        = Metric.get_value m none s) := by
  have hne1 : ¬(m.name = startId (m.sendInPings.headD "")
      ∧ m.sendInPings.headD "" = PINFO ∧ rawLabelKey m = "") :=
    fun hcon => hp hcon.2.1
  have hne2 : ¬(m.name = seqId (m.sendInPings.headD "")
      ∧ m.sendInPings.headD "" = PINFO ∧ rawLabelKey m = "") :=
    fun hcon => hp hcon.2.1
  constructor
  · intro hAll
    rw [get_value_none_eq, submit_telemetry, selectValue_upsert_ne _ _ _ _ _ _ _ _ _ _ hne1,
      selectValue_upsert_ne _ _ _ _ _ _ _ _ _ _ hne2]
    rw [selectValue, selectRow]
    rw [List.find?_eq_none.mpr ?_]
    · rfl
    · intro r hr hmatch
      obtain ⟨hrs, hkeep⟩ := List.mem_filter.mp hr
      obtain ⟨h1, h2, _⟩ := rowMatch_fields hmatch
      have hlife := hAll r hrs h1 h2
      rw [keepAfterSubmit, h2, hlife] at hkeep
      simp at hkeep
  · intro hUser
    rw [get_value_none_eq, submit_telemetry, selectValue_upsert_ne _ _ _ _ _ _ _ _ _ _ hne1,
      selectValue_upsert_ne _ _ _ _ _ _ _ _ _ _ hne2]
    rw [get_value_none_eq, selectValue, selectValue, selectRow, selectRow]
    rw [find?_filter_of_imp s.telemetry _ _ ?_]
    intro r hr hmatch
    obtain ⟨h1, h2, h3⟩ := rowMatch_fields hmatch
    have hlife := hUser r hr h1 h2 h3
    rw [keepAfterSubmit, hlife]
    simp

/-- Witness for C3 part 1: a ping-lifetime counter row is gone after submit. -/
theorem c3_lifetime_witness :
    Metric.get_value (mkMetric "clicks" "ping" none) none
        (Ping.submit "metrics" "d1" "s0" "n0" 1
          ⟨[⟨"clicks", "metrics", "ping", "", Value.int 4, 0⟩,
            ⟨"starts", "metrics", "user", "", Value.int 1, 0⟩], []⟩)
      = none := by
  have h := c3_lifetime (mkMetric "clicks" "ping" none)
      ⟨[⟨"clicks", "metrics", "ping", "", Value.int 4, 0⟩,
        ⟨"starts", "metrics", "user", "", Value.int 1, 0⟩], []⟩ "d1" "s0" "n0" 1 (by decide)
  exact h.1 (by decide)

/-- C1 (amended): `Ping.submit` enqueues, under the supplied fresh document
id and with `tries = 0`, a payload object whose top-level structure is
`{"ping_info": ..., "metrics": ...}` — the report metadata from
`get_ping_info` and the reshaped metric rows from `buildMetrics`; the Python
method itself returns `None`, not the payload. -/
theorem c1_submit_payload (name docId st n : String) (t : Nat) (s : State) :
    ∃ d : PendingRow,
      (Ping.submit name docId st n t s).pending = s.pending ++ [d]
      ∧ d.id = docId ∧ d.ping = name ∧ d.tries = 0
      ∧ d.payload = JValue.obj
          [("ping_info", JValue.obj (get_ping_info name st n t
              ⟨s.telemetry.filter (keepAfterSubmit name), s.pending⟩).1),
           ("metrics", JValue.obj (buildMetrics (s.telemetry.filter (fun r => r.ping == name))))] :=
  ⟨_, rfl, rfl, rfl, rfl, rfl⟩

/-- C1 counterexample: at a concrete submit on the empty store, the single
enqueued payload's top-level keys are `["ping_info", "metrics"]` and it has
no `"report_info"` key, refuting the claimed
`{ "report_info": ..., "metrics": ... }` shape. -/
theorem c1_counterexample :
    ((Ping.submit "metrics" "doc-1" "2024-01-01" "2024-01-02" 0 ⟨[], []⟩).pending.map
        (fun d => ((topFields d.payload).map Prod.fst,
          (assocGet (topFields d.payload) "report_info").isSome)))
      = [(["ping_info", "metrics"], false)] := by
  decide

/-! Report-info bookkeeping (`get_ping_info`) and claim C7. -/

theorem seqId_ne_startId (p : String) : seqId p ≠ startId p := by
  intro h
  have hd := congrArg String.data h
  rw [seqId, startId, String.data_append, String.data_append] at hd
  have hlen := congrArg List.length hd
  rw [List.length_append, List.length_append] at hlen
  have h9 : ("sequence#" : String).data.length = 9 := by decide
  have h6 : ("start#" : String).data.length = 6 := by decide
  rw [h9, h6] at hlen
  omega

theorem get_ping_info_fields (p st n : String) (t : Nat) (s0 : State) :
    (get_ping_info p st n t s0).1 =
      [("seq", JValue.int (valueToInt (selectValue s0.telemetry (seqId p) PINFO "") + 1)),
       ("start_time", jval (pyOrVal (selectValue s0.telemetry (startId p) PINFO "") st)),
       ("end_time", JValue.str n)]
    ∧ (get_ping_info p st n t s0).2.telemetry =
        upsert (upsert s0.telemetry (seqId p) PINFO "user" ""
            (Value.int (valueToInt (selectValue s0.telemetry (seqId p) PINFO "") + 1)) t)
          (startId p) PINFO "user" "" (Value.str n) t
    ∧ (get_ping_info p st n t s0).2.pending = s0.pending := by
  have hne : ¬(seqId p = startId p ∧ PINFO = PINFO ∧ ("" : String) = "") :=
    fun h => seqId_ne_startId p h.1
  have hne' : ¬(startId p = seqId p ∧ PINFO = PINFO ∧ ("" : String) = "") :=
    fun h => seqId_ne_startId p h.1.symm
  refine ⟨?_, rfl, rfl⟩
  show [("seq", jOfOpt (Metric.get_value (seqMetric p) none
          ⟨upsert (upsert s0.telemetry (seqId p) PINFO "user" ""
              (Value.int (valueToInt (selectValue s0.telemetry (seqId p) PINFO "") + 1)) t)
            (startId p) PINFO "user" "" (Value.str n) t, s0.pending⟩)),
        ("start_time", jval (pyOrVal (Metric.get_value (startMetric p) none
          ⟨upsert s0.telemetry (seqId p) PINFO "user" ""
              (Value.int (valueToInt (selectValue s0.telemetry (seqId p) PINFO "") + 1)) t,
            s0.pending⟩) st)),
        ("end_time", JValue.str n)] = _
  rw [get_value_none_eq, get_value_none_eq]
  show [("seq", jOfOpt (selectValue (upsert (upsert s0.telemetry (seqId p) PINFO "user" ""
            (Value.int (valueToInt (selectValue s0.telemetry (seqId p) PINFO "") + 1)) t)
          (startId p) PINFO "user" "" (Value.str n) t) (seqId p) PINFO "")),
        ("start_time", jval (pyOrVal (selectValue (upsert s0.telemetry (seqId p) PINFO "user" ""
            (Value.int (valueToInt (selectValue s0.telemetry (seqId p) PINFO "") + 1)) t)
          (startId p) PINFO "") st)),
        ("end_time", JValue.str n)] = _
  rw [selectValue_upsert_ne _ _ _ _ _ _ _ _ _ _ hne, selectValue_upsert_same,
    selectValue_upsert_ne _ _ _ _ _ _ _ _ _ _ hne']
  rfl

theorem keep_of_ping_ne (name : String) (r : TelemetryRow) (h : r.ping ≠ name) :
    keepAfterSubmit name r = true := by
  rw [keepAfterSubmit, beq_eq_false_iff_ne.mpr h]
  rfl

theorem keep_of_lifetime_user (name : String) (r : TelemetryRow) (h : r.lifetime = "user") :
    keepAfterSubmit name r = true := by
  rw [keepAfterSubmit, h]
  have hne : (("user" : String) == "ping") = false := by decide
  rw [hne]
  simp

theorem selectValue_isSome_eq (db : List TelemetryRow) (i p l : String) :
    (selectValue db i p l).isSome = (selectRow db i p l).isSome := by
  rw [selectValue]
  cases selectRow db i p l <;> rfl

theorem selectValue_filter_submit (s : State) (name i l : String) (hp : name ≠ PINFO) :
    selectValue (s.telemetry.filter (keepAfterSubmit name)) i PINFO l
      = selectValue s.telemetry i PINFO l := by
  rw [selectValue, selectValue, selectRow, selectRow]
  rw [find?_filter_of_imp s.telemetry _ _ ?_]
  intro r _ hmatch
  obtain ⟨_, h2, _⟩ := rowMatch_fields hmatch
  exact keep_of_ping_ne name r (fun he => hp ((h2 ▸ he).symm ▸ rfl))

theorem selectRow_upsert_isSome (db : List TelemetryRow) (i p l i' p' lt l' : String)
    (v : Value) (t : Nat) (h : (selectRow db i p l).isSome = true) :
    (selectRow (upsert db i' p' lt l' v t) i p l).isSome = true := by
  by_cases he : i = i' ∧ p = p' ∧ l = l'
  · obtain ⟨e1, e2, e3⟩ := he
    subst e1; subst e2; subst e3
    rw [selectRow_upsert_same]
    rfl
  · rw [selectRow_upsert_ne _ _ _ _ _ _ _ _ _ _ he]
    exact h

theorem submit_seq_value (name docId st n : String) (t : Nat) (s : State)
    (hp : name ≠ PINFO) :
    selectValue (Ping.submit name docId st n t s).telemetry (seqId name) PINFO ""
      = some (Value.int (valueToInt (selectValue s.telemetry (seqId name) PINFO "") + 1)) := by
  have hne : ¬(seqId name = startId name ∧ PINFO = PINFO ∧ ("" : String) = "") :=
    fun h => seqId_ne_startId name h.1
  rw [submit_telemetry, selectValue_upsert_ne _ _ _ _ _ _ _ _ _ _ hne,
    selectValue_upsert_same, selectValue_filter_submit s name (seqId name) "" hp]

theorem submit_seq_row (name docId st n : String) (t : Nat) (s : State)
    (hp : name ≠ PINFO) :
    selectRow (Ping.submit name docId st n t s).telemetry (seqId name) PINFO ""
      = some ⟨seqId name, PINFO, "user", "",
          Value.int (valueToInt (selectValue s.telemetry (seqId name) PINFO "") + 1), t⟩ := by
  have hne : ¬(seqId name = startId name ∧ PINFO = PINFO ∧ ("" : String) = "") :=
    fun h => seqId_ne_startId name h.1
  rw [submit_telemetry, selectRow_upsert_ne _ _ _ _ _ _ _ _ _ _ hne,
    selectRow_upsert_same, selectValue_filter_submit s name (seqId name) "" hp]

theorem submit_start_row (name docId st n : String) (t : Nat) (s : State) :
    selectRow (Ping.submit name docId st n t s).telemetry (startId name) PINFO ""
      = some ⟨startId name, PINFO, "user", "", Value.str n, t⟩ := by
  rw [submit_telemetry]
  exact selectRow_upsert_same _ _ _ _ _ _ _

theorem submit_start_value (name docId st n : String) (t : Nat) (s : State) :
    selectValue (Ping.submit name docId st n t s).telemetry (startId name) PINFO ""
      = some (Value.str n) := by
  rw [selectValue, submit_start_row]
  rfl

theorem submit_payload_fields (name docId st n : String) (t : Nat) (s : State)
    (hp : name ≠ PINFO) :
    ∃ mets : JValue,
      (Ping.submit name docId st n t s).pending
        = s.pending ++ [⟨docId, name, JValue.obj
            [("ping_info", JValue.obj
              [("seq", JValue.int
                  (valueToInt (selectValue s.telemetry (seqId name) PINFO "") + 1)),
               ("start_time", jval (pyOrVal (selectValue s.telemetry (startId name) PINFO "") st)),
               ("end_time", JValue.str n)]),
             ("metrics", mets)], "\x7b\x7d", 0, t⟩] := by
  refine ⟨JValue.obj (buildMetrics (s.telemetry.filter (fun r => r.ping == name))), ?_⟩
  rw [submit_pending_shape]
  have h1 : (get_ping_info name st n t ⟨s.telemetry.filter (keepAfterSubmit name), s.pending⟩).1
      = [("seq", JValue.int (valueToInt (selectValue
            (s.telemetry.filter (keepAfterSubmit name)) (seqId name) PINFO "") + 1)),
         ("start_time", jval (pyOrVal (selectValue
            (s.telemetry.filter (keepAfterSubmit name)) (startId name) PINFO "") st)),
         ("end_time", JValue.str n)] :=
    (get_ping_info_fields name st n t _).1
  rw [h1, selectValue_filter_submit s name (seqId name) "" hp,
    selectValue_filter_submit s name (startId name) "" hp]

/-- C7: each submission of a report name records its metadata into
user-lifetime metrics stored under report name `glean_ping_info`: the
per-report-name sequence counter grows by exactly 1 per submission (payloads
carry v+1 then v+2), the first payload's start time is the process start
timestamp when no previous end time is stored, the second payload's start
time equals the first submission's end time, each payload carries the freshly
captured end time which is stored as the next start time, and the sequence
row — lifetime `user`, report name `glean_ping_info` — survives any further
submit. -/
theorem c7_ping_info (p docId₁ docId₂ st n₁ n₂ : String) (t₁ t₂ : Nat) (s : State)
    (hp : p ≠ PINFO)
    (hstart : selectValue s.telemetry (startId p) PINFO "" = none)
    (hn₁ : n₁ ≠ "") :
    ∃ d₁ d₂ : PendingRow,
      (Ping.submit p docId₁ st n₁ t₁ s).pending = s.pending ++ [d₁]
      ∧ (Ping.submit p docId₂ st n₂ t₂ (Ping.submit p docId₁ st n₁ t₁ s)).pending
          = (Ping.submit p docId₁ st n₁ t₁ s).pending ++ [d₂]
      ∧ (∃ mets₁ : JValue, d₁.payload = JValue.obj
          [("ping_info", JValue.obj
            [("seq", JValue.int (valueToInt (selectValue s.telemetry (seqId p) PINFO "") + 1)),
             ("start_time", JValue.str st),
             ("end_time", JValue.str n₁)]),
           ("metrics", mets₁)])
      ∧ (∃ mets₂ : JValue, d₂.payload = JValue.obj
          [("ping_info", JValue.obj
            [("seq", JValue.int (valueToInt (selectValue s.telemetry (seqId p) PINFO "") + 2)),
             ("start_time", JValue.str n₁),
             ("end_time", JValue.str n₂)]),
           ("metrics", mets₂)])
      ∧ (∃ r : TelemetryRow,
          selectRow (Ping.submit p docId₂ st n₂ t₂ (Ping.submit p docId₁ st n₁ t₁ s)).telemetry
              (seqId p) PINFO "" = some r
          ∧ r.lifetime = "user" ∧ r.ping = PINFO)
      ∧ (∃ r : TelemetryRow,
          selectRow (Ping.submit p docId₂ st n₂ t₂ (Ping.submit p docId₁ st n₁ t₁ s)).telemetry
              (startId p) PINFO "" = some r
          ∧ r.lifetime = "user" ∧ r.value = Value.str n₂)
      ∧ (∀ (q docId₃ n₃ : String) (t₃ : Nat),
          (selectValue (Ping.submit q docId₃ st n₃ t₃
              (Ping.submit p docId₂ st n₂ t₂ (Ping.submit p docId₁ st n₁ t₁ s))).telemetry
            (seqId p) PINFO "").isSome = true) := by
  have hpay₁ := submit_payload_fields p docId₁ st n₁ t₁ s hp
  obtain ⟨mets₁, hpend₁⟩ := hpay₁
  have hpay₂ := submit_payload_fields p docId₂ st n₂ t₂ (Ping.submit p docId₁ st n₁ t₁ s) hp
  obtain ⟨mets₂, hpend₂⟩ := hpay₂
  have hseq₁ := submit_seq_value p docId₁ st n₁ t₁ s hp
  have hstart₁ := submit_start_value p docId₁ st n₁ t₁ s
  rw [hseq₁, hstart₁] at hpend₂
  have hv2 : valueToInt (some (Value.int
      (valueToInt (selectValue s.telemetry (seqId p) PINFO "") + 1))) + 1
      = valueToInt (selectValue s.telemetry (seqId p) PINFO "") + 2 := by
    rw [valueToInt]
    omega
  rw [hv2] at hpend₂
  have hpy₂ : jval (pyOrVal (some (Value.str n₁)) st) = JValue.str n₁ := by
    rw [pyOrVal, beq_eq_false_iff_ne.mpr hn₁]
    rfl
  rw [hpy₂] at hpend₂
  rw [hstart] at hpend₁
  have hpy₁ : jval (pyOrVal none st) = JValue.str st := rfl
  rw [hpy₁] at hpend₁
  refine ⟨_, _, hpend₁, hpend₂, ⟨mets₁, rfl⟩, ⟨mets₂, rfl⟩, ?_, ?_, ?_⟩
  · exact ⟨_, submit_seq_row p docId₂ st n₂ t₂ (Ping.submit p docId₁ st n₁ t₁ s) hp,
      rfl, rfl⟩
  · exact ⟨_, submit_start_row p docId₂ st n₂ t₂ (Ping.submit p docId₁ st n₁ t₁ s),
      rfl, rfl⟩
  · intro q docId₃ n₃ t₃
    rw [selectValue_isSome_eq, submit_telemetry]
    apply selectRow_upsert_isSome
    apply selectRow_upsert_isSome
    have hrow := submit_seq_row p docId₂ st n₂ t₂ (Ping.submit p docId₁ st n₁ t₁ s) hp
    have hmem : (⟨seqId p, PINFO, "user", "",
        Value.int (valueToInt (selectValue
          (Ping.submit p docId₁ st n₁ t₁ s).telemetry (seqId p) PINFO "") + 1), t₂⟩ :
        TelemetryRow) ∈
        (Ping.submit p docId₂ st n₂ t₂ (Ping.submit p docId₁ st n₁ t₁ s)).telemetry :=
      List.mem_of_find?_eq_some hrow
    have hmatch := List.find?_some hrow
    rw [selectRow]
    apply List.find?_isSome.mpr
    exact ⟨_, List.mem_filter.mpr ⟨hmem, keep_of_lifetime_user q _ rfl⟩, hmatch⟩

/-- Witness for C7: two submits of `"metrics"` from the empty store, then a
third submit of a different report, after which the sequence row is still
present. -/
theorem c7_ping_info_witness :
    (selectValue (Ping.submit "m2" "d3" "S" "N3" 3
        (Ping.submit "metrics" "d2" "S" "N2" 2
          (Ping.submit "metrics" "d1" "S" "N1" 1 ⟨[], []⟩))).telemetry
      (seqId "metrics") PINFO "").isSome = true := by
  have h := c7_ping_info "metrics" "d1" "d2" "S" "N1" "N2" 1 2 ⟨[], []⟩
    (by decide) rfl (by decide)
  obtain ⟨d₁, d₂, _, _, _, _, _, _, hsurv⟩ := h
  exact hsurv "m2" "d3" "N3" 3

/-! The delivery outbox: `claimNext` ordering (C6), loop termination (C10),
and the retry bound (C2). -/

theorem keyLe_refl (a : Nat × Nat) : keyLe a a := by
  unfold keyLe
  omega

theorem keyLe_total (a b : Nat × Nat) : keyLe a b ∨ keyLe b a := by
  unfold keyLe
  omega

theorem keyLe_trans (a b c : Nat × Nat) (h1 : keyLe a b) (h2 : keyLe b c) : keyLe a c := by
  unfold keyLe at h1 h2 ⊢
  omega

theorem minRow_eq_none (q : List PendingRow) : minRow q = none ↔ q = [] := by
  cases q with
  | nil => simp [minRow]
  | cons r rs =>
    simp only [minRow]
    cases minRow rs with
    | none => simp
    | some m =>
      by_cases h : keyLe (rowKey r) (rowKey m) <;> simp [h]

theorem minRow_mem (q : List PendingRow) (m : PendingRow) (h : minRow q = some m) :
    m ∈ q := by
  induction q generalizing m with
  | nil => cases h
  | cons r rs ih =>
    rw [minRow] at h
    cases hm : minRow rs with
    | none =>
      simp only [hm] at h
      exact (Option.some_inj.mp h) ▸ List.mem_cons_self r rs
    | some m' =>
      simp only [hm] at h
      by_cases hle : keyLe (rowKey r) (rowKey m')
      · rw [if_pos hle] at h
        exact (Option.some_inj.mp h) ▸ List.mem_cons_self r rs
      · rw [if_neg hle] at h
        have hmm : m' = m := Option.some_inj.mp h
        exact List.mem_cons_of_mem r (hmm ▸ ih m' hm)

theorem minRow_min (q : List PendingRow) (m : PendingRow) (h : minRow q = some m) :
    ∀ d ∈ q, keyLe (rowKey m) (rowKey d) := by
  induction q generalizing m with
  | nil => cases h
  | cons r rs ih =>
    rw [minRow] at h
    intro d hd
    cases hm : minRow rs with
    | none =>
      simp only [hm] at h
      have hrs : rs = [] := (minRow_eq_none rs).mp hm
      subst hrs
      rcases List.mem_cons.mp hd with hdr | hdn
      · exact hdr ▸ (Option.some_inj.mp h) ▸ keyLe_refl _
      · cases hdn
    | some m' =>
      simp only [hm] at h
      by_cases hle : keyLe (rowKey r) (rowKey m')
      · rw [if_pos hle] at h
        obtain rfl := Option.some_inj.mp h
        rcases List.mem_cons.mp hd with hdr | hdn
        · exact hdr ▸ keyLe_refl _
        · exact keyLe_trans _ _ _ hle (ih m' hm d hdn)
      · rw [if_neg hle] at h
        obtain rfl := Option.some_inj.mp h
        rcases List.mem_cons.mp hd with hdr | hdn
        · have := (keyLe_total (rowKey r) (rowKey m')).resolve_left hle
          exact hdr ▸ this
        · exact ih m' hm d hdn

theorem find?_id_nodup (q : List PendingRow) (m : PendingRow) (hm : m ∈ q)
    (hnd : (q.map PendingRow.id).Nodup) :
    q.find? (fun r => r.id == m.id) = some m := by
  induction q with
  | nil => cases hm
  | cons r rs ih =>
    rcases List.mem_cons.mp hm with hmr | hmn
    · subst hmr
      exact List.find?_cons_of_pos _ (by simp)
    · have hne : (r.id == m.id) = false := by
        have hnotin : r.id ∉ rs.map PendingRow.id := by
          rw [List.map_cons, List.nodup_cons] at hnd
          exact hnd.1
        have : m.id ∈ rs.map PendingRow.id := List.mem_map.mpr ⟨m, hmn, rfl⟩
        exact beq_eq_false_iff_ne.mpr (fun he => hnotin (he ▸ this))
      rw [List.find?_cons_of_neg _ (by simp [hne])]
      rw [List.map_cons, List.nodup_cons] at hnd
      exact ih hmn hnd.2

theorem bumpRow_id (t : Nat) (r : PendingRow) : (bumpRow t r).id = r.id := rfl

/-- C6: the claim step of `Uploader.get_upload_task` returns `none` on an
empty queue, and otherwise — in one atomic step, modelled as a single
function on the queue — selects a document minimal in the
`(updated_at, tries)` lexicographic order, increments its try count,
refreshes its timestamp to the current time, and returns exactly that updated
row. -/
theorem c6_claim_next (t : Nat) :
    claimNext t [] = (none, [])
    ∧ (∀ (q : List PendingRow), q ≠ [] → (q.map PendingRow.id).Nodup →
        ∃ m ∈ q, (∀ d ∈ q, keyLe (rowKey m) (rowKey d))
          ∧ claimNext t q = (some (bumpRow t m),
              q.map (fun r => if r.id == m.id then bumpRow t r else r))) := by
  refine ⟨rfl, ?_⟩
  intro q hne hnd
  cases hmr : minRow q with
  | none => exact absurd ((minRow_eq_none q).mp hmr) hne
  | some m =>
    refine ⟨m, minRow_mem q m hmr, minRow_min q m hmr, ?_⟩
    rw [claimNext]
    simp only [hmr]
    have hcomp : ((fun r => r.id == m.id) ∘
        (fun r => if r.id == m.id then bumpRow t r else r)) = (fun r => r.id == m.id) := by
      funext r
      cases hb : r.id == m.id with
      | false =>
        have hne2 : r.id ≠ m.id := beq_eq_false_iff_ne.mp hb
        simp [hb, hne2]
      | true =>
        have heq : r.id = m.id := beq_iff_eq.mp hb
        simp [hb, heq, bumpRow_id]
    rw [List.find?_map, hcomp, find?_id_nodup q m (minRow_mem q m hmr) hnd]
    rw [Option.map_some']
    rw [if_pos (by simp)]

/-- Witness for C6 on a concrete two-document queue. -/
theorem c6_claim_next_witness :
    ∃ m ∈ [c6DocA, c6DocB], (∀ d ∈ [c6DocA, c6DocB], keyLe (rowKey m) (rowKey d))
      ∧ claimNext 5 [c6DocA, c6DocB] = (some (bumpRow 5 m),
          [c6DocA, c6DocB].map (fun r => if r.id == m.id then bumpRow 5 r else r)) :=
  (c6_claim_next 5).2 [c6DocA, c6DocB] (by simp)
    (by decide)

theorem rowMeasure_pos (r : PendingRow) : 1 ≤ rowMeasure r := by
  rw [rowMeasure, MAX_TRIES]
  have := Nat.min_le_right r.tries 4
  omega

theorem queueMeasure_nil : queueMeasure [] = 0 := rfl

theorem queueMeasure_cons (r : PendingRow) (q : List PendingRow) :
    queueMeasure (r :: q) = rowMeasure r + queueMeasure q := by
  rw [queueMeasure, queueMeasure, List.map_cons, List.sum_cons]

theorem rowMeasure_bump_le (t : Nat) (r : PendingRow) :
    rowMeasure (bumpRow t r) ≤ rowMeasure r := by
  have hb : (bumpRow t r).tries = r.tries + 1 := rfl
  rw [rowMeasure, rowMeasure, hb, MAX_TRIES]
  rcases Nat.le_total r.tries 4 with h | h
  · rcases Nat.lt_or_ge r.tries 4 with h2 | h2
    · rw [Nat.min_eq_left h, Nat.min_eq_left (by omega)]
      omega
    · have h3 : r.tries = 4 := by omega
      rw [h3]
      omega
  · rw [Nat.min_eq_right h, Nat.min_eq_right (by omega)]

theorem rowMeasure_bump_lt (t : Nat) (r : PendingRow) (h : r.tries + 1 ≤ MAX_TRIES) :
    rowMeasure (bumpRow t r) < rowMeasure r := by
  have hb : (bumpRow t r).tries = r.tries + 1 := rfl
  rw [MAX_TRIES] at h
  rw [rowMeasure, rowMeasure, hb, MAX_TRIES]
  rw [Nat.min_eq_left (by omega), Nat.min_eq_left (by omega)]
  omega

theorem queueMeasure_filter_le (keep : PendingRow → Bool) (q : List PendingRow) :
    queueMeasure (q.filter keep) ≤ queueMeasure q := by
  induction q with
  | nil => exact Nat.le_refl 0
  | cons r rs ih =>
    by_cases hk : keep r = true
    · rw [List.filter_cons_of_pos hk, queueMeasure_cons, queueMeasure_cons]
      omega
    · rw [List.filter_cons_of_neg hk, queueMeasure_cons]
      omega

theorem queueMeasure_filter_lt (keep : PendingRow → Bool) (q : List PendingRow)
    (x : PendingRow) (hx : x ∈ q) (hkx : keep x = false) :
    queueMeasure (q.filter keep) < queueMeasure q := by
  induction q with
  | nil => cases hx
  | cons r rs ih =>
    by_cases hk : keep r = true
    · have hxr : x ∈ rs := by
        rcases List.mem_cons.mp hx with he | hm
        · rw [he] at hkx; rw [hkx] at hk; cases hk
        · exact hm
      rw [List.filter_cons_of_pos hk, queueMeasure_cons, queueMeasure_cons]
      have := ih hxr
      omega
    · rw [List.filter_cons_of_neg hk, queueMeasure_cons]
      have h1 := queueMeasure_filter_le keep rs
      have h2 := rowMeasure_pos r
      omega

theorem queueMeasure_map_bump_le (q : List PendingRow) (mid : String) (t : Nat) :
    queueMeasure (q.map (fun r => if r.id == mid then bumpRow t r else r))
      ≤ queueMeasure q := by
  rw [queueMeasure, queueMeasure, List.map_map]
  apply List.sum_le_sum
  intro r _
  by_cases h : (r.id == mid) = true
  · simp only [Function.comp_apply, h, if_true]
    exact rowMeasure_bump_le t r
  · simp only [Function.comp_apply, h, if_false]
    exact Nat.le_refl _

theorem claimNext_some_inv (t : Nat) (q : List PendingRow) (v : PendingRow)
    (q1 : List PendingRow) (h : claimNext t q = (some v, q1)) :
    ∃ m r0, m ∈ q ∧ r0 ∈ q ∧ r0.id = m.id ∧ v = bumpRow t r0 ∧ v.id = m.id
      ∧ q1 = q.map (fun r => if r.id == m.id then bumpRow t r else r) := by
  cases hmr : minRow q with
  | none =>
    rw [claimNext] at h
    simp only [hmr] at h
    rw [Prod.ext_iff] at h
    exact absurd h.1 (by simp)
  | some m =>
    rw [claimNext] at h
    simp only [hmr] at h
    have hcomp : ((fun r => r.id == m.id) ∘
        (fun r => if r.id == m.id then bumpRow t r else r)) = (fun r => r.id == m.id) := by
      funext r
      cases hb : r.id == m.id with
      | false =>
        have hne2 : r.id ≠ m.id := beq_eq_false_iff_ne.mp hb
        simp [hb, hne2]
      | true =>
        have heq : r.id = m.id := beq_iff_eq.mp hb
        simp [hb, heq, bumpRow_id]
    rw [Prod.ext_iff] at h
    obtain ⟨hfind, hq1⟩ := h
    simp only at hfind hq1
    rw [List.find?_map, hcomp] at hfind
    cases hf : q.find? (fun r => r.id == m.id) with
    | none => rw [hf] at hfind; cases hfind
    | some r0 =>
      rw [hf] at hfind
      rw [Option.map_some'] at hfind
      have hr0q : r0 ∈ q := List.mem_of_find?_eq_some hf
      have hr0id : r0.id = m.id := by simpa using List.find?_some hf
      have hfr0 : (if r0.id == m.id then bumpRow t r0 else r0) = bumpRow t r0 :=
        if_pos (beq_iff_eq.mpr hr0id)
      rw [hfr0] at hfind
      have hveq : v = bumpRow t r0 := (Option.some_inj.mp hfind).symm
      refine ⟨m, r0, minRow_mem q m hmr, hr0q, hr0id, hveq, ?_, hq1.symm⟩
      rw [hveq, bumpRow_id]
      exact hr0id

theorem loop_next_queue_lt (oracle : Nat → Bool) (k t : Nat) (q : List PendingRow)
    (v : PendingRow) (q1 : List PendingRow) (h : claimNext t q = (some v, q1)) :
    queueMeasure (if oracle k
        then (if MAX_TRIES < v.tries
            then q1.filter (fun r => !(r.id == v.id)) else q1).filter
          (fun r => !(r.id == v.id))
        else if MAX_TRIES < v.tries then q1.filter (fun r => !(r.id == v.id)) else q1)
      < queueMeasure q := by
  obtain ⟨m, r0, hm, hr0, hid, hv, hvid, hq1⟩ := claimNext_some_inv t q v q1 h
  have hle : queueMeasure q1 ≤ queueMeasure q := by
    rw [hq1]
    exact queueMeasure_map_bump_le q m.id t
  have hvq1 : v ∈ q1 := by
    rw [hq1, hv]
    exact List.mem_map.mpr ⟨r0, hr0, if_pos (beq_iff_eq.mpr hid)⟩
  have hdel_lt : queueMeasure (q1.filter (fun r => !(r.id == v.id))) < queueMeasure q1 :=
    queueMeasure_filter_lt _ q1 v hvq1 (by simp)
  by_cases hdel : MAX_TRIES < v.tries
  · rw [if_pos hdel]
    by_cases hsucc : oracle k = true
    · rw [if_pos hsucc]
      calc queueMeasure ((q1.filter (fun r => !(r.id == v.id))).filter
              (fun r => !(r.id == v.id)))
          ≤ queueMeasure (q1.filter (fun r => !(r.id == v.id))) :=
            queueMeasure_filter_le _ _
        _ < queueMeasure q1 := hdel_lt
        _ ≤ queueMeasure q := hle
    · rw [if_neg hsucc]
      omega
  · rw [if_neg hdel]
    have hkept_lt : queueMeasure q1 < queueMeasure q := by
      rw [hq1, queueMeasure, queueMeasure, List.map_map]
      apply List.sum_lt_sum
      · intro r _
        by_cases hb : (r.id == m.id) = true
        · simp only [Function.comp_apply, hb, if_true]
          exact rowMeasure_bump_le t r
        · simp only [Function.comp_apply, hb, if_false]
          exact Nat.le_refl _
      · refine ⟨r0, hr0, ?_⟩
        simp only [Function.comp_apply, if_pos (beq_iff_eq.mpr hid)]
        apply rowMeasure_bump_lt
        have hvt : v.tries = r0.tries + 1 := by rw [hv]; rfl
        omega
    by_cases hsucc : oracle k = true
    · rw [if_pos hsucc]
      have := queueMeasure_filter_le (fun r => !(r.id == v.id)) q1
      omega
    · rw [if_neg hsucc]
      exact hkept_lt

theorem upload_fuel_sufficient (oracle : Nat → Bool) :
    ∀ (fuel : Nat) (q : List PendingRow) (k t : Nat), queueMeasure q ≤ fuel →
      ∃ evs qf, get_upload_task oracle fuel k t q = some (evs, qf)
        ∧ evs.length ≤ queueMeasure q := by
  intro fuel
  induction fuel with
  | zero =>
    intro q k t hq
    have hq0 : q = [] := by
      cases q with
      | nil => rfl
      | cons r rs =>
        exfalso
        rw [queueMeasure_cons] at hq
        have := rowMeasure_pos r
        omega
    subst hq0
    exact ⟨[], [], rfl, Nat.le_refl 0⟩
  | succ fuel ih =>
    intro q k t hq
    cases hcn : claimNext t q with
    | mk ov q1 =>
      cases ov with
      | none =>
        refine ⟨[], q1, ?_, by simp⟩
        rw [get_upload_task, hcn]
      | some v =>
        have hlt := loop_next_queue_lt oracle k t q v q1 hcn
        obtain ⟨evs, qf, hrun, hlen⟩ := ih
          (if oracle k
            then (if MAX_TRIES < v.tries
                then q1.filter (fun r => !(r.id == v.id)) else q1).filter
              (fun r => !(r.id == v.id))
            else if MAX_TRIES < v.tries then q1.filter (fun r => !(r.id == v.id)) else q1)
          (k + 1) (t + 1) (by omega)
        refine ⟨⟨v.id, v.tries⟩ :: evs, qf, ?_, ?_⟩
        · rw [get_upload_task, hcn]
          simp only
          rw [hrun]
        · rw [List.length_cons]
          omega

/-- C10: for every finite initial queue the `Uploader.get_upload_task` loop
terminates, whatever the upload outcomes: `queueMeasure q` iterations of fuel
always suffice (each claim either stops on an empty queue, deletes the
claimed document, or leaves it with a strictly larger try count, and a claim
whose try count exceeds `MAX_TRIES` deletes it), and the number of claims is
bounded by `queueMeasure q`. -/
theorem c10_loop_terminates (oracle : Nat → Bool) (q : List PendingRow) (k t : Nat) :
    ∃ evs qf, get_upload_task oracle (queueMeasure q) k t q = some (evs, qf)
      ∧ evs.length ≤ queueMeasure q :=
  upload_fuel_sufficient oracle (queueMeasure q) q k t (Nat.le_refl _)

/-- C2 (amended): a pending ping that fails upload on every claim is claimed
exactly four times — try counts 1, 2, 3, 4 — and is deleted from the outbox on
the 4th claim, the one whose try count first exceeds `MAX_TRIES = 3`; no claim
after the deleting one returns it (the queue ends empty).  However the
deleting claim still hands the payload to the uploader once more (the loop
has no `continue` after the delete), so the uploader sees the document four
times, the last hand-off carrying try count 4. -/
theorem c2_retry_bound (d : PendingRow) (oracle : Nat → Bool) (k t : Nat)
    (h0 : d.tries = 0) (hfail : ∀ j, oracle j = false) :
    get_upload_task oracle 5 k t [d]
      = some ([⟨d.id, 1⟩, ⟨d.id, 2⟩, ⟨d.id, 3⟩, ⟨d.id, 4⟩], []) := by
  obtain ⟨id, ping, payload, mtd, tries, u⟩ := d
  simp only at h0
  subst h0
  simp [get_upload_task, claimNext, minRow, bumpRow, hfail, MAX_TRIES]

/-- Witness for C2's amended statement at a concrete document. -/
theorem c2_retry_bound_witness :
    get_upload_task allFail 5 0 0 [c2Doc]
      = some ([⟨"doc-1", 1⟩, ⟨"doc-1", 2⟩, ⟨"doc-1", 3⟩, ⟨"doc-1", 4⟩], []) :=
  c2_retry_bound c2Doc allFail 0 0 rfl (fun _ => rfl)

/-- C2 counterexample: on a concrete always-failing document the trace of
uploader hand-offs contains one with try count 4 > `MAX_TRIES`, refuting
"the payload is never delivered to the uploader once that bound is
exceeded" — the deleting 4th claim still attempts the upload. -/
theorem c2_counterexample :
    (get_upload_task allFail 5 0 0 [c2Doc]).map Prod.fst
      = some [⟨"doc-1", 1⟩, ⟨"doc-1", 2⟩, ⟨"doc-1", 3⟩, ⟨"doc-1", 4⟩]
    ∧ (UploadEvent.mk "doc-1" 4) ∈
        [UploadEvent.mk "doc-1" 1, UploadEvent.mk "doc-1" 2,
          UploadEvent.mk "doc-1" 3, UploadEvent.mk "doc-1" 4]
    ∧ MAX_TRIES < 4 := by
  exact ⟨rfl, by decide, by decide⟩

end Miniglean
